import Mathlib

/-!
Verification of the error-normalization subsystem of `django_tools`
(`src/django_tools/errors/{types,container,mixins,exceptions}.py`).

The Python code is shallowly embedded:

* `PyVal` is the domain of dynamic Python values fed to `Errors.normalize`:
  strings, ints, `None`, dicts (string-keyed association lists, first
  occurrence wins, mirroring unique-key Python dicts), lists, tuples,
  `bytes`, generic non-exception objects, exceptions, and already-built
  `Errors` / `ErrorItem` instances.  Third-party exception classes that the
  dispatcher special-cases by name and module (`ninja.errors.ValidationError`,
  `ninja.errors.HttpError`, `pydantic.ValidationError`) are outside the
  embedded domain: no `PyVal` constructor denotes an instance of those
  classes, so the corresponding dispatch branches are vacuous and omitted.
  Exceptions are modelled by their class name, `str()` value, `repr()` value
  and an optional `.errors` attribute (the shape `ApiError` exposes).
* `ErrorItem` mirrors the pydantic model in `types.py`; `FieldMask` records
  which optional fields were explicitly passed to the constructor
  (pydantic's `__pydantic_fields_set__`; `message` is required and therefore
  always set).  Pydantic v2 field validation for dynamically supplied values
  is modelled by `validateStrV` / `validateOptStr` / `validateOptInt`
  (pydantic v2 does not coerce ints to strings; numeric strings are coerced
  to ints via `String.toInt?`; the lax bytes-to-str coercion is not modelled
  as no dict in the verified claims carries a bytes-valued field).
* Functions that can raise in Python return `Except PyExn _`.
* `pyRepr` / `pyStr` model `repr()` / `str()`.  String `repr` is modelled as
  quote-wrapping without escape sequences (the verified inputs contain no
  quotes or backslashes); `repr`/`str` of exceptions and plain objects are
  carried as data since Python computes them from state the embedding does
  not track.  `pyEq` models Python `==`: structural on primitives and
  containers, key-lookup based (insertion-order insensitive) on dicts, and
  field-based on pydantic models, which compare by `__dict__` and ignore
  `__pydantic_fields_set__`.  For plain objects and exceptions Python `==`
  is identity; the embedding approximates identity by structural equality of
  the carried data, which coincides with it on all inputs considered here.
-/

/-- Python exception kinds that the embedded code can raise. -/
inductive PyExn where
  | validationError
  | typeError
  | keyError
deriving DecidableEq, Repr

/-- Which optional `ErrorItem` fields were explicitly passed at construction
(`__pydantic_fields_set__`); `message` is required, hence always set. -/
structure FieldMask where
  fsField : Bool
  fsCode : Bool
  fsItem : Bool
  fsMeta : Bool
deriving DecidableEq, Repr

mutual
/-- A dynamic Python value in the domain of `Errors.normalize`. -/
inductive PyVal where
  | pstr : String → PyVal
  | pint : Int → PyVal
  | pnone : PyVal
  | pdict : List (String × PyVal) → PyVal
  | plist : List PyVal → PyVal
  | ptuple : List PyVal → PyVal
  | pbytes : List Nat → PyVal
  | pobj : (strv : String) → (reprv : String) → PyVal
  | pexc : (cname : String) → (strv : String) → (reprv : String) →
      (errsAttr : Option (List ErrorItem)) → PyVal
  | perrors : List ErrorItem → PyVal
  | perrItem : ErrorItem → PyVal
deriving Repr

/-- The pydantic model `ErrorItem` from `errors/types.py`:
message, optional field, optional code, optional item index, metadata dict,
plus the set-fields mask. -/
inductive ErrorItem where
  | mk : (message : String) → (field : Option String) → (code : Option Int) →
      (item : Option Int) → (meta : List (String × PyVal)) →
      (fset : FieldMask) → ErrorItem
deriving Repr
end

def ErrorItem.message : ErrorItem → String
  | .mk m _ _ _ _ _ => m

def ErrorItem.field : ErrorItem → Option String
  | .mk _ f _ _ _ _ => f

def ErrorItem.code : ErrorItem → Option Int
  | .mk _ _ c _ _ _ => c

def ErrorItem.item : ErrorItem → Option Int
  | .mk _ _ _ i _ _ => i

def ErrorItem.meta : ErrorItem → List (String × PyVal)
  | .mk _ _ _ _ m _ => m

def ErrorItem.fset : ErrorItem → FieldMask
  | .mk _ _ _ _ _ s => s

/-- `Errors.root`: the container is an ordered list of items. -/
abbrev Errors := List ErrorItem

/-- Auxiliary bound used for termination of `pyEq`: a value found by
association-list lookup is smaller than the list. -/
theorem sizeOf_lookup_lt {k : String} {b : List (String × PyVal)} {w : PyVal}
    (h : List.lookup k b = some w) : sizeOf w < sizeOf b := by
  induction b with
  | nil => simp [List.lookup] at h
  | cons hd tl ih =>
    rw [List.lookup] at h
    by_cases hk : (k == hd.1) = true
    · rw [hk] at h
      simp only at h
      cases h
      cases hd with
      | mk k1 v1 => simp; omega
    · rw [Bool.not_eq_true] at hk
      rw [hk] at h
      simp only at h
      have := ih h
      simp
      omega

/-- `repr` of a Python string, modelled as quote-wrapping (escape sequences
are not modelled; the verified inputs contain no quotes or backslashes). -/
def reprString (s : String) : String := "\x27" ++ s ++ "\x27"

/-- `repr` of an optional-string field value (`None` or a quoted string). -/
def optStrRepr : Option String → String
  | none => "None"
  | some s => reprString s

/-- `repr` of an optional-int field value. -/
def optIntRepr : Option Int → String
  | none => "None"
  | some n => toString n

/-- Lowercase hex digit. -/
def hexDigit (n : Nat) : String :=
  (["0", "1", "2", "3", "4", "5", "6", "7", "8", "9",
    "a", "b", "c", "d", "e", "f"].getD n "0")

/-- One byte inside a `bytes` repr, following Python's rendering. -/
def byteRepr (b : Nat) : String :=
  if b == 9 then "\\t"
  else if b == 10 then "\\n"
  else if b == 13 then "\\r"
  else if b == 39 then "\\\x27"
  else if b == 92 then "\\\\"
  else if 32 ≤ b && b < 127 then String.singleton (Char.ofNat b)
  else "\\x" ++ hexDigit (b / 16) ++ hexDigit (b % 16)

/-- Body of a `bytes` repr. -/
def bytesReprBody : List Nat → String
  | [] => ""
  | b :: rest => byteRepr b ++ bytesReprBody rest

mutual
/-- Python `repr()` on the embedded value domain.  For containers Python
renders elements with `repr`; for exceptions and plain objects the repr is
carried as data; pydantic models render as `ClassName(field=repr, ...)`. -/
def pyRepr : PyVal → String
  | .pstr s => reprString s
  | .pint n => toString n
  | .pnone => "None"
  | .pdict kvs => "\x7b" ++ dictReprBody kvs ++ "\x7d"
  | .plist xs => "[" ++ listReprBody xs ++ "]"
  | .ptuple [] => "()"
  | .ptuple [x] => "(" ++ pyRepr x ++ ",)"
  | .ptuple xs => "(" ++ listReprBody xs ++ ")"
  | .pbytes bs => "b\x27" ++ bytesReprBody bs ++ "\x27"
  | .pobj _ r => r
  | .pexc _ _ r _ => r
  | .perrors items => "Errors(root=[" ++ itemsReprBody items ++ "])"
  | .perrItem it => itemRepr it

/-- Comma-separated `key: value` pairs of a dict repr. -/
def dictReprBody : List (String × PyVal) → String
  | [] => ""
  | [(k, v)] => reprString k ++ ": " ++ pyRepr v
  | (k, v) :: rest => reprString k ++ ": " ++ pyRepr v ++ ", " ++ dictReprBody rest

/-- Comma-separated elements of a list/tuple repr. -/
def listReprBody : List PyVal → String
  | [] => ""
  | [x] => pyRepr x
  | x :: rest => pyRepr x ++ ", " ++ listReprBody rest

/-- Comma-separated reprs of `ErrorItem`s. -/
def itemsReprBody : List ErrorItem → String
  | [] => ""
  | [it] => itemRepr it
  | it :: rest => itemRepr it ++ ", " ++ itemsReprBody rest

/-- Pydantic `repr` of an `ErrorItem`. -/
def itemRepr : ErrorItem → String
  | .mk m f c i meta _ =>
    "ErrorItem(message=" ++ reprString m ++ ", field=" ++ optStrRepr f ++
    ", code=" ++ optIntRepr c ++ ", item=" ++ optIntRepr i ++
    ", meta=\x7b" ++ dictReprBody meta ++ "\x7d)"
end

/-- Pydantic `__str__` of an `ErrorItem` (space-separated field reprs). -/
def itemStr : ErrorItem → String
  | .mk m f c i meta _ =>
    "message=" ++ reprString m ++ " field=" ++ optStrRepr f ++
    " code=" ++ optIntRepr c ++ " item=" ++ optIntRepr i ++
    " meta=\x7b" ++ dictReprBody meta ++ "\x7d"

/-- Python `str()` on the embedded value domain.  Strings render as
themselves; exceptions and plain objects carry their `str` as data;
containers fall back to `repr`; pydantic models use the pydantic `__str__`,
a `RootModel` rendering as `root=[...]`. -/
def pyStr : PyVal → String
  | .pstr s => s
  | .pobj s _ => s
  | .pexc _ s _ _ => s
  | .perrors items => "root=[" ++ itemsReprBody items ++ "]"
  | .perrItem it => itemStr it
  | v => pyRepr v

/-- Python truthiness on the embedded domain: empty strings and containers
and `None` and `0` are falsy; plain objects and exceptions are truthy;
`Errors.__bool__` tests non-emptiness; a pydantic `ErrorItem` is truthy. -/
def pyTruthy : PyVal → Bool
  | .pstr s => !s.isEmpty
  | .pint n => n != 0
  | .pnone => false
  | .pdict kvs => !kvs.isEmpty
  | .plist xs => !xs.isEmpty
  | .ptuple xs => !xs.isEmpty
  | .pbytes bs => !bs.isEmpty
  | .pobj _ _ => true
  | .pexc _ _ _ _ => true
  | .perrors items => !items.isEmpty
  | .perrItem _ => true

mutual
/-- Python `==` on the embedded domain: structural on primitives and
sequences, length-and-lookup based on dicts (insertion order irrelevant),
and field-based on pydantic models (mask ignored, matching pydantic v2
`__eq__` which compares `__dict__` only). -/
def pyEq : PyVal → PyVal → Bool
  | .pstr a, .pstr b => a == b
  | .pint a, .pint b => a == b
  | .pnone, .pnone => true
  | .pdict a, .pdict b => a.length == b.length && dictLe a b
  | .plist a, .plist b => pyEqList a b
  | .ptuple a, .ptuple b => pyEqList a b
  | .pbytes a, .pbytes b => a == b
  | .pobj s r, .pobj s2 r2 => s == s2 && r == r2
  | .pexc c s r e, .pexc c2 s2 r2 e2 =>
    c == c2 && s == s2 && r == r2 && optItemsEq e e2
  | .perrors a, .perrors b => itemsEq a b
  | .perrItem a, .perrItem b => itemEq a b
  | _, _ => false
termination_by a b => sizeOf a + sizeOf b
decreasing_by
  all_goals simp_wf
  all_goals omega

/-- Every key of the first dict maps to a `pyEq`-equal value in the second. -/
def dictLe : List (String × PyVal) → List (String × PyVal) → Bool
  | [], _ => true
  | (k, v) :: rest, b =>
    (match h : List.lookup k b with
     | some w => pyEq v w
     | none => false) && dictLe rest b
termination_by a b => sizeOf a + sizeOf b
decreasing_by
  all_goals simp_wf
  all_goals try (have hb := sizeOf_lookup_lt h)
  all_goals omega

/-- Pointwise `pyEq` on equal-length lists. -/
def pyEqList : List PyVal → List PyVal → Bool
  | [], [] => true
  | a :: as, b :: bs => pyEq a b && pyEqList as bs
  | _, _ => false
termination_by a b => sizeOf a + sizeOf b
decreasing_by
  all_goals simp_wf
  all_goals omega

/-- Pointwise `itemEq` on equal-length lists (Python `list.__eq__`). -/
def itemsEq : List ErrorItem → List ErrorItem → Bool
  | [], [] => true
  | a :: as, b :: bs => itemEq a b && itemsEq as bs
  | _, _ => false
termination_by a b => sizeOf a + sizeOf b
decreasing_by
  all_goals simp_wf
  all_goals omega

/-- `==` on the optional `.errors` attribute. -/
def optItemsEq : Option (List ErrorItem) → Option (List ErrorItem) → Bool
  | none, none => true
  | some a, some b => itemsEq a b
  | _, _ => false
termination_by a b => sizeOf a + sizeOf b
decreasing_by
  all_goals simp_wf
  all_goals omega

/-- Pydantic `__eq__` on `ErrorItem`: full field equality (message, field,
code, item, meta) with the set-fields mask ignored. -/
def itemEq : ErrorItem → ErrorItem → Bool
  | .mk m f c i meta _, .mk m2 f2 c2 i2 meta2 _ =>
    m == m2 && f == f2 && c == c2 && i == i2 &&
    (meta.length == meta2.length && dictLe meta meta2)
termination_by a b => sizeOf a + sizeOf b
decreasing_by
  all_goals simp_wf
  all_goals omega
end


/-- Pydantic v2 validation of a value against the required field
`message : str`: only strings are accepted (no int-to-str coercion). -/
def validateStrV : PyVal → Except PyExn String
  | .pstr s => .ok s
  | _ => .error .validationError

/-- Pydantic v2 validation against `field : str | None`. -/
def validateOptStr : PyVal → Except PyExn (Option String)
  | .pnone => .ok none
  | .pstr s => .ok (some s)
  | _ => .error .validationError

/-- Pydantic v2 validation against `code : int | None` / `item : int | None`:
ints pass, `None` passes, numeric strings are lax-coerced. -/
def validateOptInt : PyVal → Except PyExn (Option Int)
  | .pnone => .ok none
  | .pint n => .ok (some n)
  | .pstr s =>
    match s.toInt? with
    | some n => .ok (some n)
    | none => .error .validationError
  | _ => .error .validationError

/-- Pydantic v2 validation against `meta : dict[str, Any]`. -/
def validateMeta : PyVal → Except PyExn (List (String × PyVal))
  | .pdict m => .ok m
  | _ => .error .validationError

/-- `ErrorItem(message=m, code=code)`: the shape built whenever the source
stringifies a value, with fields-set mask `message, code`. -/
def msgCodeItem (m : String) (code : Option Int) : ErrorItem :=
  .mk m none code none [] ⟨false, true, false, false⟩

/-- Mask for `_from_generic_dict`, which passes all five fields. -/
def allSetMask : FieldMask := ⟨true, true, true, true⟩

/-- Python iteration (`for item in v`): lists/tuples yield their elements,
`bytes` yields ints, strings yield one-character strings, dicts yield their
keys, `Errors.__iter__` yields the items, pydantic `BaseModel.__iter__`
yields `(name, value)` tuples; ints, `None`, exceptions and plain objects
are not iterable (`TypeError`). -/
def pyIter : PyVal → Except PyExn (List PyVal)
  | .plist xs => .ok xs
  | .ptuple xs => .ok xs
  | .pbytes bs => .ok (bs.map (fun b => .pint (Int.ofNat b)))
  | .pstr s => .ok (s.toList.map (fun c => .pstr (String.singleton c)))
  | .pdict kvs => .ok (kvs.map (fun kv => .pstr kv.1))
  | .perrors items => .ok (items.map .perrItem)
  | .perrItem (.mk m f c i meta _) =>
    .ok [.ptuple [.pstr "message", .pstr m],
         .ptuple [.pstr "field", f.elim PyVal.pnone .pstr],
         .ptuple [.pstr "code", c.elim PyVal.pnone .pint],
         .ptuple [.pstr "item", i.elim PyVal.pnone .pint],
         .ptuple [.pstr "meta", .pdict meta]]
  | _ => .error .typeError

/-- Sequential effectful map modelling a Python `for` loop that builds a
list and propagates the first raised exception. -/
def exMap (f : α → Except PyExn β) : List α → Except PyExn (List β)
  | [] => .ok []
  | x :: xs =>
    match f x with
    | .error e => .error e
    | .ok y =>
      match exMap f xs with
      | .error e => .error e
      | .ok ys => .ok (y :: ys)

/-- Loop that `extend`s an accumulator with per-element item lists
(`_from_sequence`'s loop shape), propagating the first exception. -/
def exFlatMap (f : α → Except PyExn (List ErrorItem)) :
    List α → Except PyExn (List ErrorItem)
  | [] => .ok []
  | x :: xs =>
    match f x with
    | .error e => .error e
    | .ok ys =>
      match exFlatMap f xs with
      | .error e => .error e
      | .ok rest => .ok (ys ++ rest)

/-- `ErrorItem(**item)` for a dict `item`: required `message`, optional
`field`/`code`/`item`/`meta` validated by pydantic, extra keys ignored
(default pydantic config), fields-set mask recording the present keys. -/
def itemFromKwargs (d : List (String × PyVal)) : Except PyExn ErrorItem :=
  match (d.lookup "message").elim (Except.error PyExn.validationError) validateStrV with
  | .error e => .error e
  | .ok m =>
    match (d.lookup "field").elim (Except.ok none) validateOptStr with
    | .error e => .error e
    | .ok f =>
      match (d.lookup "code").elim (Except.ok none) validateOptInt with
      | .error e => .error e
      | .ok c =>
        match (d.lookup "item").elim (Except.ok none) validateOptInt with
        | .error e => .error e
        | .ok i =>
          match (d.lookup "meta").elim (Except.ok []) validateMeta with
          | .error e => .error e
          | .ok meta =>
            .ok (.mk m f c i meta
              ⟨(d.lookup "field").isSome, (d.lookup "code").isSome,
               (d.lookup "item").isSome, (d.lookup "meta").isSome⟩)

namespace Errors

/-- Line 171 of `mixins.py`:
`message = error.get("message") or error.get("msg") or str(error)` —
Python `or` selects the first truthy operand. -/
def genericMessageVal (kvs : List (String × PyVal)) : PyVal :=
  let a := (List.lookup "message" kvs).getD .pnone
  if pyTruthy a then a
  else
    let b := (List.lookup "msg" kvs).getD .pnone
    if pyTruthy b then b
    else .pstr (pyStr (.pdict kvs))

/-- Lines 177-183 of `mixins.py`: explicit `meta` key used when it is a
dict (else `{}`); otherwise the remaining keys are collected as metadata. -/
def genericMeta (kvs : List (String × PyVal)) : List (String × PyVal) :=
  match List.lookup "meta" kvs with
  | some (.pdict m) => m
  | some _ => []
  | none =>
    kvs.filter (fun kv =>
      !(["message", "msg", "field", "code", "item", "meta"].contains kv.1))

/-- `NormalizeErrorsMixin._from_generic_dict`. -/
def fromGenericDict (kvs : List (String × PyVal)) (code : Option Int) :
    Except PyExn Errors :=
  match validateStrV (genericMessageVal kvs) with
  | .error e => .error e
  | .ok message =>
    match validateOptStr ((List.lookup "field" kvs).getD .pnone) with
    | .error e => .error e
    | .ok field =>
      match (List.lookup "code" kvs).elim (Except.ok code) validateOptInt with
      | .error e => .error e
      | .ok errorCode =>
        match (List.lookup "item" kvs).elim (Except.ok none) validateOptInt with
        | .error e => .error e
        | .ok itm =>
          .ok [.mk message field errorCode itm (genericMeta kvs) allSetMask]

/-- `NormalizeErrorsMixin._from_description_format`: a list value yields one
item per truthy entry; any other value is stringified into one item. -/
def fromDescriptionFormat (kvs : List (String × PyVal)) (code : Option Int) :
    Except PyExn Errors :=
  match List.lookup "description" kvs with
  | none => .error .keyError
  | some (.plist msgs) =>
    match exMap validateStrV (msgs.filter pyTruthy) with
    | .error e => .error e
    | .ok ms => .ok (ms.map (fun m => msgCodeItem m code))
  | some d => .ok [msgCodeItem (pyStr d) code]

/-- One element of the `data` list in `_from_error_bag_format`: a dict is
field-expanded via `ErrorItem(**item)`, anything else is stringified. -/
def dataElemItem (code : Option Int) : PyVal → Except PyExn ErrorItem
  | .pdict d => itemFromKwargs d
  | x => .ok (msgCodeItem (pyStr x) code)

/-- `NormalizeErrorsMixin._from_error_bag_format`: iterate
`error.get("data", [])` and convert each element. -/
def fromErrorBagFormat (kvs : List (String × PyVal)) (code : Option Int) :
    Except PyExn Errors :=
  match pyIter ((List.lookup "data" kvs).getD (.plist [])) with
  | .error e => .error e
  | .ok xs => exMap (dataElemItem code) xs

/-- `NormalizeErrorsMixin._from_dict`: `"data"` takes precedence, then
`"description"`, else the generic-dict rule. -/
def fromDict (kvs : List (String × PyVal)) (code : Option Int) :
    Except PyExn Errors :=
  if (List.lookup "data" kvs).isSome then fromErrorBagFormat kvs code
  else if (List.lookup "description" kvs).isSome then
    fromDescriptionFormat kvs code
  else fromGenericDict kvs code

/-- The body of `_from_sequence`'s loop for one element: `ErrorItem` is
appended, `Errors` and ApiError-shaped exceptions are spliced, dicts are
converted via `_from_dict`, other exceptions and all remaining values are
stringified with the outer code.  (The ninja `ValidationError` / `HttpError`
branches are unreachable in the embedded domain.) -/
def seqElemItems (code : Option Int) : PyVal → Except PyExn (List ErrorItem)
  | .perrItem it => .ok [it]
  | .perrors items => .ok items
  | .pexc cname strv _ errsAttr =>
    match errsAttr with
    | some errs =>
      if cname == "ApiError" then .ok errs
      else .ok [msgCodeItem strv code]
    | none => .ok [msgCodeItem strv code]
  | .pdict kvs => fromDict kvs code
  | x => .ok [msgCodeItem (pyStr x) code]

/-- `NormalizeErrorsMixin._from_sequence`. -/
def fromSequence (xs : List PyVal) (code : Option Int) :
    Except PyExn Errors :=
  exFlatMap (seqElemItems code) xs

/-- `NormalizeErrorsMixin.normalize` (the classmethod on `Errors`), with
the dispatch order of lines 55-92 of `mixins.py`: existing `Errors` pass
through, an `ErrorItem` is wrapped, ApiError-shaped exceptions (attribute
presence plus exact class-name match) return their internal errors, dicts
and non-string sequences are converted, remaining exceptions and all other
values are stringified.  (The pydantic/ninja `ValidationError` and ninja
`HttpError` branches are unreachable in the embedded domain.) -/
def normalize (error : PyVal) (code : Option Int := none) :
    Except PyExn Errors :=
  match error with
  | .perrors e => .ok e
  | .perrItem it => .ok [it]
  | .pexc cname strv _ errsAttr =>
    match errsAttr with
    | some errs =>
      if cname == "ApiError" then .ok errs
      else .ok [msgCodeItem strv code]
    | none => .ok [msgCodeItem strv code]
  | .pdict kvs => fromDict kvs code
  | .plist xs => fromSequence xs code
  | .ptuple xs => fromSequence xs code
  | .pbytes bs => fromSequence (bs.map (fun b => .pint (Int.ofNat b))) code
  | .pstr s => .ok [msgCodeItem s code]
  | v => .ok [msgCodeItem (pyStr v) code]

/-- `Errors.messages` property. -/
def messages (e : Errors) : List String := e.map ErrorItem.message

/-- `Errors.__sub__`: keep each element of `self.root` that is not
`==`-equal to any element of `other.root`. -/
def sub (a b : Errors) : Errors :=
  a.filter (fun e => !(b.any (fun o => itemEq e o)))

/-- `ErrorItem.model_dump(exclude_unset=..., exclude_none=...)`: the fields
in declaration order, dropping unset fields under `exclude_unset` and
`None`-valued fields under `exclude_none`.  `message` is always set and
never `None`; `meta` is a dict, never `None`. -/
def dumpItem (e : ErrorItem) (eu en : Bool) : List (String × PyVal) :=
  [("message", PyVal.pstr e.message)] ++
  (if (!eu || e.fset.fsField) && (!en || e.field.isSome) then
    [("field", e.field.elim PyVal.pnone .pstr)] else []) ++
  (if (!eu || e.fset.fsCode) && (!en || e.code.isSome) then
    [("code", e.code.elim PyVal.pnone .pint)] else []) ++
  (if (!eu || e.fset.fsItem) && (!en || e.item.isSome) then
    [("item", e.item.elim PyVal.pnone .pint)] else []) ++
  (if !eu || e.fset.fsMeta then [("meta", PyVal.pdict e.meta)] else [])

/-- `Errors.to_dict`: dump every item, read `i["message"]` back from each
dumped dict (a `KeyError` if it were absent), and pair the message list with
the dump list under exactly the keys `"description"` and `"data"`. -/
def toDict (e : Errors) (eu : Bool := true) (en : Bool := true) :
    Except PyExn PyVal :=
  let items := e.map (fun it => dumpItem it eu en)
  match exMap (fun i =>
      (List.lookup "message" i).elim (Except.error PyExn.keyError) .ok)
      items with
  | .error ex => .error ex
  | .ok msgs =>
    .ok (.pdict [("description", .plist msgs),
                 ("data", .plist (items.map .pdict))])

end Errors

/-- Dispatch of `normalize` for a mapping reaches `_from_dict`. -/
theorem normalize_pdict (kvs : List (String × PyVal)) (code : Option Int) :
    Errors.normalize (.pdict kvs) code = Errors.fromDict kvs code := rfl

/-- A mapping with neither `"data"` nor `"description"` keys is handled by
`_from_generic_dict`. -/
theorem fromDict_generic {kvs : List (String × PyVal)} (code : Option Int)
    (hdata : List.lookup "data" kvs = none)
    (hdesc : List.lookup "description" kvs = none) :
    Errors.fromDict kvs code = Errors.fromGenericDict kvs code := by
  unfold Errors.fromDict
  rw [hdata, hdesc]
  simp

/-- Characterization of `_from_generic_dict` when every field validates. -/
theorem fromGenericDict_ok {kvs : List (String × PyVal)} {code : Option Int}
    {m : String} {f : Option String} {ec it : Option Int}
    (hm : validateStrV (Errors.genericMessageVal kvs) = .ok m)
    (hf : validateOptStr ((List.lookup "field" kvs).getD .pnone) = .ok f)
    (hc : (List.lookup "code" kvs).elim (Except.ok code) validateOptInt = .ok ec)
    (hi : (List.lookup "item" kvs).elim (Except.ok none) validateOptInt = .ok it) :
    Errors.fromGenericDict kvs code =
      .ok [.mk m f ec it (Errors.genericMeta kvs) allSetMask] := by
  unfold Errors.fromGenericDict
  rw [hm, hf, hc, hi]

/-- C3, counterexample: for the mapping `m = \x7b"message": ""\x7d` the key
`"message"` is present, yet the produced item's message is `str(m)` —
namely `\x7b\x27message\x27: \x27\x27\x7d` — and not `m["message"] = ""`:
the `or`-chain in `_from_generic_dict` selects by truthiness, not by key
presence, so the claim as stated is false. -/
theorem normalize_generic_message_presence_counterexample :
    Errors.normalize (.pdict [("message", .pstr "")]) none =
      .ok [.mk "\x7b\x27message\x27: \x27\x27\x7d" none none none [] allSetMask] ∧
    ("\x7b\x27message\x27: \x27\x27\x7d" : String) ≠ "" :=
  ⟨rfl, by decide⟩

/-- C3 (amended): in `_from_generic_dict` the message is selected by
truthiness, not presence: `m["message"]` is used when truthy (for a string:
non-empty), else `m["msg"]` when truthy, else `str(m)`.  Stated for string
values of the two keys; the other item fields must validate for the call to
return at all. -/
theorem normalize_generic_message_selection
    (kvs : List (String × PyVal)) (code : Option Int)
    (f : Option String) (ec it : Option Int)
    (hdata : List.lookup "data" kvs = none)
    (hdesc : List.lookup "description" kvs = none)
    (hf : validateOptStr ((List.lookup "field" kvs).getD .pnone) = .ok f)
    (hc : (List.lookup "code" kvs).elim (Except.ok code) validateOptInt = .ok ec)
    (hi : (List.lookup "item" kvs).elim (Except.ok none) validateOptInt = .ok it) :
    (∀ s, (List.lookup "message" kvs).getD .pnone = .pstr s → s ≠ "" →
       Errors.normalize (.pdict kvs) code =
         .ok [.mk s f ec it (Errors.genericMeta kvs) allSetMask]) ∧
    (∀ s, pyTruthy ((List.lookup "message" kvs).getD .pnone) = false →
       (List.lookup "msg" kvs).getD .pnone = .pstr s → s ≠ "" →
       Errors.normalize (.pdict kvs) code =
         .ok [.mk s f ec it (Errors.genericMeta kvs) allSetMask]) ∧
    (pyTruthy ((List.lookup "message" kvs).getD .pnone) = false →
     pyTruthy ((List.lookup "msg" kvs).getD .pnone) = false →
       Errors.normalize (.pdict kvs) code =
         .ok [.mk (pyStr (.pdict kvs)) f ec it (Errors.genericMeta kvs) allSetMask]) := by
  refine ⟨fun s h1 h2 => ?_, fun s ht h1 h2 => ?_, fun ht1 ht2 => ?_⟩
  all_goals rw [normalize_pdict, fromDict_generic code hdata hdesc]
  · have hse : s.isEmpty = false := by
      rw [Bool.eq_false_iff]
      intro hx
      exact h2 ((String.isEmpty_iff s).mp hx)
    have hm : validateStrV (Errors.genericMessageVal kvs) = .ok s := by
      simp [Errors.genericMessageVal, h1, pyTruthy, hse, validateStrV]
    exact fromGenericDict_ok hm hf hc hi
  · have hse : s.isEmpty = false := by
      rw [Bool.eq_false_iff]
      intro hx
      exact h2 ((String.isEmpty_iff s).mp hx)
    have hb : pyTruthy ((List.lookup "msg" kvs).getD .pnone) = true := by
      rw [h1]
      simp [pyTruthy, hse]
    have hm : validateStrV (Errors.genericMessageVal kvs) = .ok s := by
      simp only [Errors.genericMessageVal]
      rw [ht, h1]
      simp [pyTruthy, hse, validateStrV]
    exact fromGenericDict_ok hm hf hc hi
  · have hm : validateStrV (Errors.genericMessageVal kvs) =
        .ok (pyStr (.pdict kvs)) := by
      simp [Errors.genericMessageVal, ht1, ht2, validateStrV]
    exact fromGenericDict_ok hm hf hc hi

/-- Witness for the amended C3 theorem at the concrete mapping
`\x7b"msg": "fallback"\x7d` with an absent (hence falsy) `"message"` key. -/
theorem normalize_generic_message_selection_witness :
    Errors.normalize (.pdict [("msg", .pstr "fallback")]) (some 9) =
      .ok [.mk "fallback" none (some 9) none
        (Errors.genericMeta [("msg", .pstr "fallback")]) allSetMask] :=
  (normalize_generic_message_selection [("msg", .pstr "fallback")] (some 9)
    none (some 9) none rfl rfl rfl rfl rfl).2.1 "fallback" rfl rfl
    (by decide)

/-- C4: in `_from_generic_dict` the explicit `"code"` entry of the mapping
decides the item's code by key presence, not truthiness: when the key is
present its (validated) value is used even if it is `0` or `None`; when it
is absent the outer `code` parameter is used. -/
theorem normalize_generic_code_precedence
    (kvs : List (String × PyVal)) (code : Option Int)
    (m : String) (f : Option String) (it : Option Int)
    (hdata : List.lookup "data" kvs = none)
    (hdesc : List.lookup "description" kvs = none)
    (hm : validateStrV (Errors.genericMessageVal kvs) = .ok m)
    (hf : validateOptStr ((List.lookup "field" kvs).getD .pnone) = .ok f)
    (hi : (List.lookup "item" kvs).elim (Except.ok none) validateOptInt = .ok it) :
    (∀ v ec, List.lookup "code" kvs = some v → validateOptInt v = .ok ec →
       Errors.normalize (.pdict kvs) code =
         .ok [.mk m f ec it (Errors.genericMeta kvs) allSetMask]) ∧
    (List.lookup "code" kvs = none →
       Errors.normalize (.pdict kvs) code =
         .ok [.mk m f code it (Errors.genericMeta kvs) allSetMask]) := by
  constructor
  · intro v ec hv hec
    rw [normalize_pdict, fromDict_generic code hdata hdesc]
    refine fromGenericDict_ok hm hf ?_ hi
    rw [hv]
    exact hec
  · intro hv
    rw [normalize_pdict, fromDict_generic code hdata hdesc]
    refine fromGenericDict_ok hm hf ?_ hi
    rw [hv]
    rfl

/-- Witness for C4: `normalize(\x7b"message": "x", "code": 0\x7d, code=500)`
yields an item whose code is `0`, the explicit zero beating the default. -/
theorem normalize_generic_code_precedence_witness :
    Errors.normalize (.pdict [("message", .pstr "x"), ("code", .pint 0)])
        (some 500) =
      .ok [.mk "x" none (some 0) none
        (Errors.genericMeta [("message", .pstr "x"), ("code", .pint 0)])
        allSetMask] :=
  (normalize_generic_code_precedence
    [("message", .pstr "x"), ("code", .pint 0)] (some 500) "x" none none
    rfl rfl rfl rfl rfl).1 (.pint 0) (some 0) rfl rfl

/-- C5: `Errors.__sub__` keeps exactly the elements of `a.root` that are not
structurally `==`-equal (full field equality: message, field, code, item,
meta) to any element of `b.root`: the result is a sublist of `a` (original
relative order, `a` itself untouched since the operation is pure), an
element survives iff it equals no element of `b`, each element of `a` is
tested independently (cons rule), and duplicates in `b` are irrelevant. -/
theorem sub_structural_difference (a b : Errors) :
    List.Sublist (Errors.sub a b) a ∧
    (∀ e, e ∈ Errors.sub a b ↔ e ∈ a ∧ ∀ o ∈ b, itemEq e o = false) ∧
    (∀ x, Errors.sub (x :: a) b =
       if b.any (fun o => itemEq x o) then Errors.sub a b
       else x :: Errors.sub a b) ∧
    (Errors.sub a (b ++ b) = Errors.sub a b) := by
  refine ⟨List.filter_sublist _, fun e => ?_, fun x => ?_, ?_⟩
  · simp [Errors.sub, List.mem_filter, List.any_eq_true, Bool.not_eq_true]
  · by_cases hx : b.any (fun o => itemEq x o) = true
    · simp [Errors.sub, List.filter_cons, hx]
    · rw [Bool.not_eq_true] at hx
      simp [Errors.sub, List.filter_cons, hx]
  · unfold Errors.sub
    apply List.filter_congr
    intro x _
    simp [List.any_append]

/-- The dumped dict of any `ErrorItem` always carries `"message"` first,
with the item's own message: `message` is required (hence set) and a string
(hence not `None`), so neither exclusion flag can drop it. -/
theorem lookup_message_dumpItem (it : ErrorItem) (eu en : Bool) :
    List.lookup "message" (Errors.dumpItem it eu en) =
      some (.pstr it.message) := rfl

/-- C6: for every `Errors` value and every combination of the
`exclude_unset` / `exclude_none` flags, `to_dict` returns a mapping with
exactly the keys `"description"` and `"data"`, whose lists both have one
entry per item of `root` in order, and `description[i]` is exactly the
message of the `i`-th item. -/
theorem toDict_description_data_pairing (e : Errors) (eu en : Bool) :
    Errors.toDict e eu en =
      .ok (.pdict
        [("description", .plist (e.map (fun it => .pstr it.message))),
         ("data",
          .plist (e.map (fun it => .pdict (Errors.dumpItem it eu en))))]) := by
  have key : ∀ l : Errors,
      exMap (fun i =>
        (List.lookup "message" i).elim (Except.error PyExn.keyError)
          Except.ok)
        (l.map (fun it => Errors.dumpItem it eu en)) =
      .ok (l.map (fun it => PyVal.pstr it.message)) := by
    intro l
    induction l with
    | nil => rfl
    | cons it rest ih =>
      simp [exMap, lookup_message_dumpItem, ih]
  simp only [Errors.toDict]
  rw [key e]
  simp

/-- C7: a mapping containing the key `"data"` is treated as a serialized
`Errors` dump — each element of the `data` list becomes one `ErrorItem` via
`dataElemItem` (dicts field-expanded through `ErrorItem(**item)`, everything
else stringified with the outer code) — and any `"description"` entry is
ignored; in particular the dump with `description = ["e1", "e2"]` and empty
`data` normalizes to an empty `Errors`. -/
theorem normalize_data_key_dispatch
    (kvs : List (String × PyVal)) (code : Option Int)
    (ds : List PyVal) (items : Errors)
    (hdata : List.lookup "data" kvs = some (.plist ds))
    (hconv : exMap (Errors.dataElemItem code) ds = .ok items) :
    Errors.normalize (.pdict kvs) code = .ok items ∧
    Errors.normalize
      (.pdict [("description", .plist [.pstr "e1", .pstr "e2"]),
               ("data", .plist [])]) code = .ok [] := by
  constructor
  · rw [normalize_pdict]
    unfold Errors.fromDict
    rw [hdata]
    simp only [Option.isSome_some, if_true]
    unfold Errors.fromErrorBagFormat
    rw [hdata]
    simpa [pyIter] using hconv
  · rfl

/-- Witness for C7: a two-element `data` list with one dict (field-expanded)
and one plain string (stringified with the outer code). -/
theorem normalize_data_key_dispatch_witness :
    Errors.normalize
      (.pdict [("data",
        .plist [.pdict [("message", .pstr "b"), ("field", .pstr "f")],
                .pstr "a"])]) (some 3) =
      .ok [.mk "b" (some "f") none none [] ⟨true, false, false, false⟩,
           msgCodeItem "a" (some 3)] ∧
    Errors.normalize
      (.pdict [("description", .plist [.pstr "e1", .pstr "e2"]),
               ("data", .plist [])]) (some 3) = .ok [] :=
  normalize_data_key_dispatch _ (some 3) _ _ rfl rfl

/-- C8: a value that already is an `Errors` instance passes through
`normalize` unchanged (the Python code returns the very same object; in the
pure model this is equality of the returned list), hence normalizing twice
equals normalizing once. -/
theorem normalize_identity_on_errors (e : Errors) (code code2 : Option Int) :
    Errors.normalize (.perrors e) code = .ok e ∧
    (∀ es, Errors.normalize (.perrors e) code = .ok es →
       Errors.normalize (.perrors es) code2 = .ok es) := by
  refine ⟨rfl, fun es h => ?_⟩
  have h2 : (Except.ok e : Except PyExn Errors) = .ok es := h
  cases h2
  rfl

/-- Witness for C8 at a concrete one-item container. -/
theorem normalize_identity_on_errors_witness :
    Errors.normalize (.perrors [msgCodeItem "x" (some 1)]) none =
      .ok [msgCodeItem "x" (some 1)] ∧
    Errors.normalize (.perrors [msgCodeItem "x" (some 1)]) (some 2) =
      .ok [msgCodeItem "x" (some 1)] :=
  ⟨(normalize_identity_on_errors [msgCodeItem "x" (some 1)] none none).1,
   (normalize_identity_on_errors [msgCodeItem "x" (some 1)] none
      (some 2)).2 _ rfl⟩

/-- C9: an exception exposing an `errors` attribute whose class is named
exactly `"ApiError"` has its internal `Errors` returned directly, while an
exception with any other class name — e.g. a subclass of `ApiError` — falls
through to the generic-Exception rule: one item with `str(exception)` as
message and the outer code. -/
theorem normalize_apierror_by_class_name (cname s r : String)
    (errs : Errors) (attr : Option Errors) (code : Option Int) :
    (Errors.normalize (.pexc "ApiError" s r (some errs)) code = .ok errs) ∧
    (cname ≠ "ApiError" →
       Errors.normalize (.pexc cname s r attr) code =
         .ok [msgCodeItem s code]) := by
  constructor
  · simp [Errors.normalize]
  · intro h
    cases attr with
    | none => rfl
    | some es2 => simp [Errors.normalize, h]

/-- Witness for C9: a subclass-shaped exception named `"UserError"` that
carries an `errors` attribute is nonetheless handled by the generic rule. -/
theorem normalize_apierror_by_class_name_witness :
    Errors.normalize
      (.pexc "UserError" "boom" "UserError()"
        (some [msgCodeItem "inner" none])) (some 7) =
      .ok [msgCodeItem "boom" (some 7)] :=
  (normalize_apierror_by_class_name "UserError" "boom" "UserError()"
    [] (some [msgCodeItem "inner" none]) (some 7)).2 (by decide)

/-- Auxiliary for C10: a list of ints fed to `_from_sequence` yields one
stringified item per int. -/
theorem fromSequence_pints (l : List Nat) (code : Option Int) :
    Errors.fromSequence (l.map (fun b => .pint (Int.ofNat b))) code =
      .ok (l.map (fun b => msgCodeItem (toString b) code)) := by
  induction l with
  | nil => rfl
  | cons b rest ih =>
    have h1 : Errors.seqElemItems code (.pint (Int.ofNat b)) =
        .ok [msgCodeItem (toString b) code] := rfl
    simp only [List.map_cons]
    unfold Errors.fromSequence at ih ⊢
    rw [exFlatMap, h1, ih]
    simp

/-- C10: `bytes` input is dispatched as a non-string sequence: iterating it
yields its byte values as ints, so `normalize` produces one `ErrorItem` per
byte whose message is the byte's decimal string and whose code is the outer
code (not a single item containing `str(b)`). -/
theorem normalize_bytes_per_byte (bs : List Nat) (code : Option Int) :
    Errors.normalize (.pbytes bs) code =
      .ok (bs.map (fun b => msgCodeItem (toString b) code)) :=
  fromSequence_pints bs code

/-- C2: a non-string sequence `[a, b, c]` (list or tuple) normalizes to the
concatenation, in order, of the items each element contributes under the
per-element rule of `_from_sequence`, and a nested non-string sequence
element is not flattened further: it contributes exactly one `ErrorItem`
whose message is the stringification of the whole inner sequence. -/
theorem normalize_seq_one_level_flatten
    (a b c : PyVal) (code : Option Int) (ia ib ic : List ErrorItem)
    (ha : Errors.seqElemItems code a = .ok ia)
    (hb : Errors.seqElemItems code b = .ok ib)
    (hc : Errors.seqElemItems code c = .ok ic) :
    (Errors.normalize (.plist [a, b, c]) code = .ok (ia ++ ib ++ ic)) ∧
    (Errors.normalize (.ptuple [a, b, c]) code = .ok (ia ++ ib ++ ic)) ∧
    (∀ inner, Errors.seqElemItems code (.plist inner) =
       .ok [msgCodeItem (pyStr (.plist inner)) code]) ∧
    (∀ inner, Errors.seqElemItems code (.ptuple inner) =
       .ok [msgCodeItem (pyStr (.ptuple inner)) code]) := by
  have hseq : Errors.fromSequence [a, b, c] code = .ok (ia ++ ib ++ ic) := by
    unfold Errors.fromSequence
    rw [exFlatMap, ha, exFlatMap, hb, exFlatMap, hc]
    simp [exFlatMap]
  exact ⟨hseq, hseq, fun inner => rfl, fun inner => rfl⟩

/-- Witness for C2 at a mixed concrete sequence: a string, a generic dict
and a nested list, the last contributing a single stringified item. -/
theorem normalize_seq_one_level_flatten_witness :
    Errors.normalize
      (.plist [.pstr "x", .pdict [("message", .pstr "m")],
               .plist [.pstr "y", .pint 2]]) (some 4) =
      .ok ([msgCodeItem "x" (some 4)] ++
           [.mk "m" none (some 4) none [] allSetMask] ++
           [msgCodeItem "[\x27y\x27, 2]" (some 4)]) :=
  (normalize_seq_one_level_flatten (.pstr "x")
    (.pdict [("message", .pstr "m")]) (.plist [.pstr "y", .pint 2]) (some 4)
    _ _ _ rfl rfl rfl).1

/-- Is the value a Python mapping? -/
def PyVal.isDict : PyVal → Bool
  | .pdict _ => true
  | _ => false

/-- Inputs on which `normalize` is total: anything that is not itself a
mapping and, when a non-string sequence, has no mapping elements.  (Mapping
inputs can raise through pydantic validation of inner values.) -/
def noMappingInput : PyVal → Bool
  | .pdict _ => false
  | .plist xs => xs.all (fun x => !x.isDict)
  | .ptuple xs => xs.all (fun x => !x.isDict)
  | _ => true

/-- Each non-mapping sequence element is handled without raising. -/
theorem seqElemItems_ok_of_not_dict (code : Option Int) (x : PyVal)
    (h : x.isDict = false) :
    ∃ ys, Errors.seqElemItems code x = .ok ys := by
  cases x with
  | pdict kvs => simp [PyVal.isDict] at h
  | pexc cname s r attr =>
    cases attr with
    | none => exact ⟨_, rfl⟩
    | some errs =>
      by_cases hn : (cname == "ApiError") = true
      · exact ⟨errs, by simp [Errors.seqElemItems, hn]⟩
      · rw [Bool.not_eq_true] at hn
        exact ⟨[msgCodeItem s code], by simp [Errors.seqElemItems, hn]⟩
  | pstr s => exact ⟨_, rfl⟩
  | pint n => exact ⟨_, rfl⟩
  | pnone => exact ⟨_, rfl⟩
  | plist xs => exact ⟨_, rfl⟩
  | ptuple xs => exact ⟨_, rfl⟩
  | pbytes bs => exact ⟨_, rfl⟩
  | pobj s r => exact ⟨_, rfl⟩
  | perrors items => exact ⟨_, rfl⟩
  | perrItem it => exact ⟨_, rfl⟩

/-- A sequence of non-mapping elements is flattened without raising. -/
theorem fromSequence_ok_of_no_dict (code : Option Int) (xs : List PyVal)
    (h : ∀ x ∈ xs, x.isDict = false) :
    ∃ es, Errors.fromSequence xs code = .ok es := by
  induction xs with
  | nil => exact ⟨[], rfl⟩
  | cons x rest ih =>
    obtain ⟨ys, hy⟩ := seqElemItems_ok_of_not_dict code x (h x (by simp))
    obtain ⟨es, he⟩ := ih (fun z hz => h z (by simp [hz]))
    refine ⟨ys ++ es, ?_⟩
    unfold Errors.fromSequence at he ⊢
    rw [exFlatMap, hy, he]

/-- C1 (amended): `normalize` returns an `Errors` without raising for every
input that is not a mapping and, when a non-string sequence, has no mapping
elements: strings, ints, `None`, bytes, exceptions, plain objects,
`Errors`/`ErrorItem` instances, and sequences of such values. -/
theorem normalize_total_on_nonmappings (v : PyVal) (code : Option Int)
    (h : noMappingInput v = true) :
    ∃ es, Errors.normalize v code = .ok es := by
  cases v with
  | pdict kvs => simp [noMappingInput] at h
  | plist xs =>
    simp only [noMappingInput, List.all_eq_true, Bool.not_eq_true'] at h
    exact fromSequence_ok_of_no_dict code xs h
  | ptuple xs =>
    simp only [noMappingInput, List.all_eq_true, Bool.not_eq_true'] at h
    exact fromSequence_ok_of_no_dict code xs h
  | pbytes bs =>
    refine fromSequence_ok_of_no_dict code _ ?_
    intro x hx
    simp only [List.mem_map] at hx
    obtain ⟨b, _, rfl⟩ := hx
    rfl
  | pexc cname s r attr =>
    cases attr with
    | none => exact ⟨_, rfl⟩
    | some errs =>
      by_cases hn : (cname == "ApiError") = true
      · exact ⟨errs, by simp [Errors.normalize, hn]⟩
      · rw [Bool.not_eq_true] at hn
        exact ⟨[msgCodeItem s code], by simp [Errors.normalize, hn]⟩
  | pstr s => exact ⟨_, rfl⟩
  | pint n => exact ⟨_, rfl⟩
  | pnone => exact ⟨_, rfl⟩
  | pobj s r => exact ⟨_, rfl⟩
  | perrors items => exact ⟨_, rfl⟩
  | perrItem it => exact ⟨_, rfl⟩

/-- Witness for the amended C1 at a concrete mixed non-mapping sequence. -/
theorem normalize_total_on_nonmappings_witness :
    noMappingInput
      (.plist [.pstr "a", .pint 1, .pnone,
               .pexc "ValueError" "boom" "ValueError(\x27boom\x27)" none,
               .plist [.pdict [("k", .pint 0)]]]) = true ∧
    ∃ es, Errors.normalize
      (.plist [.pstr "a", .pint 1, .pnone,
               .pexc "ValueError" "boom" "ValueError(\x27boom\x27)" none,
               .plist [.pdict [("k", .pint 0)]]]) (some 8) = .ok es :=
  ⟨rfl, normalize_total_on_nonmappings _ (some 8) rfl⟩

/-- C1, counterexample: `normalize` is not total.  For the mapping
`\x7b"description": [5]\x7d` the description-format rule keeps the truthy
entry `5` and calls `ErrorItem(message=5, code=None)`, and pydantic v2
rejects an int for the `str`-typed `message` field, so the call raises a
`ValidationError` instead of returning an `Errors`. -/
theorem normalize_raises_on_invalid_description_entry :
    Errors.normalize (.pdict [("description", .plist [.pint 5])]) none =
      .error .validationError := rfl
